import Mathlib

/-!
Verification development for the hexcaster real-time DSP core.

Shallow embedding of the components under `src/`:
* `Pipeline::process`          (src/dsp/pipeline/src/pipeline.cpp)
* `ParamRegistry::set/get`     (src/params/src/param_registry.cpp)
* `ParamSmoother`              (src/params/src/param_smoother.cpp)
* `GainStage`                  (gain_stage.cpp / gain_stage.h)
* `NamStage`                   (src/dsp/components/src/nam_stage.cpp)

C++ `float` arithmetic is idealised as exact arithmetic over `ℝ`
(or `ℚ` where only ordering/clamping is involved); transcendental
library calls (`std::exp`, `std::pow`, `std::log10`) become `Real.exp`,
`Real.rpow` and `Real.logb`.  Buffers (`float*`) are modelled as total
functions `ℕ → ℝ`, and in-place mutation as returning the updated
function.  Atomic loads/stores collapse to plain reads/writes in this
single-threaded embedding.
-/

namespace Hexcaster

/-! ## Pipeline (src/dsp/pipeline/src/pipeline.cpp)

`Pipeline::process` only dispatches virtual calls; we embed it as the
trace of calls it makes, identifying stages and controllers by their
registration index. -/

/-- One call dispatched by `Pipeline::process`. -/
inductive PipelineEvent where
  | preProcess (c : ℕ)
  | stageProcess (s : ℕ)
  | betweenStages (c : ℕ) (s : ℕ)
  deriving DecidableEq

/-- Trace of `Pipeline::process(buffer, n)` for `numStages` registered
stages and `numControllers` registered controllers: first the
`preProcess` loop over controllers, then for each stage its `process`
followed by the `betweenStages` loop over controllers. -/
def Pipeline.processTrace (numStages numControllers : ℕ) : List PipelineEvent :=
  ((List.range numControllers).map PipelineEvent.preProcess)
    ++ (List.range numStages).flatMap (fun s =>
        PipelineEvent.stageProcess s ::
          (List.range numControllers).map (fun c => PipelineEvent.betweenStages c s))

/-- The per-stage block emitted by the inner loop body. -/
def Pipeline.stageBlock (numControllers : ℕ) (s : ℕ) : List PipelineEvent :=
  PipelineEvent.stageProcess s ::
    (List.range numControllers).map (fun c => PipelineEvent.betweenStages c s)

/-- Predicate picking out `betweenStages` calls delivered to controller `c`. -/
def isBetweenOf (c : ℕ) : PipelineEvent → Bool
  | PipelineEvent.betweenStages c' _ => c' == c
  | _ => false

/-! ## ParamRegistry (src/params/src/param_registry.cpp, param_id.h)

`values_` is an array of 43 atomic floats (`kNumParams =
static_cast<int>(ParamId::kCount)`, with `kCount = 43` after the gaps in
the `ParamId` enumeration); we model it as a total function `ℕ → ℚ` read
at indices `0..42`.  `set`/`get` take the already-`static_cast` integer
id, so out-of-range and negative ids are representable. -/

/-- `std::clamp(v, lo, hi)`: `v < lo ? lo : (hi < v ? hi : v)`. -/
def stdClamp (v lo hi : ℚ) : ℚ :=
  if v < lo then lo else if hi < v then hi else v

/-- `{defaultValue, minValue, maxValue}` metadata row. -/
structure ParamInfo where
  defaultValue : ℚ
  minValue : ℚ
  maxValue : ℚ
  deriving DecidableEq

/-- `static_cast<int>(ParamId::kCount)`. -/
def kNumParams : ℕ := 43

/-- The static metadata table built by the initialiser lambda in
param_registry.cpp: every row starts at the safe fallback
`{0, -1e9, 1e9}` and the rows at the `ParamId` enum values are then
overwritten.  Enum values from param_id.h: Bloom 0-5, post-EQ 10-18,
master 30, reverb 40-42. -/
def kParamInfo : ℕ → ParamInfo := fun i =>
  if i = 0 then ⟨0, -24, 24⟩            -- BloomBasePre_dB
  else if i = 1 then ⟨0, -24, 24⟩       -- BloomBasePost_dB
  else if i = 2 then ⟨6, 0, 24⟩         -- BloomPreDepth
  else if i = 3 then ⟨3, 0, 24⟩         -- BloomPostDepth
  else if i = 4 then ⟨5, 1/10, 500⟩     -- EnvAttackMs
  else if i = 5 then ⟨100, 1, 5000⟩     -- EnvReleaseMs
  else if i = 10 then ⟨100, 20, 20000⟩  -- EqBand1Freq
  else if i = 11 then ⟨0, -24, 24⟩      -- EqBand1GainDb
  else if i = 12 then ⟨1, 1/10, 10⟩     -- EqBand1Q
  else if i = 13 then ⟨1000, 20, 20000⟩ -- EqBand2Freq
  else if i = 14 then ⟨0, -24, 24⟩      -- EqBand2GainDb
  else if i = 15 then ⟨1, 1/10, 10⟩     -- EqBand2Q
  else if i = 16 then ⟨8000, 20, 20000⟩ -- EqBand3Freq
  else if i = 17 then ⟨0, -24, 24⟩      -- EqBand3GainDb
  else if i = 18 then ⟨1, 1/10, 10⟩     -- EqBand3Q
  else if i = 30 then ⟨0, -60, 24⟩      -- MasterGain_dB
  else if i = 40 then ⟨1/2, 0, 1⟩       -- ReverbRoomSize
  else if i = 41 then ⟨1/2, 0, 1⟩       -- ReverbDamping
  else if i = 42 then ⟨0, 0, 1⟩         -- ReverbWet_Norm
  else ⟨0, -(10^9), 10^9⟩               -- fallback for the enum gaps

/-- The `values_` array. -/
def ParamRegistry := ℕ → ℚ

/-- `ParamRegistry::set(id, value)`: invalid ids (`i < 0 || i >= kNumParams`)
return without storing; otherwise the value is clamped to the registered
range and stored. -/
def ParamRegistry.set (values : ParamRegistry) (id : ℤ) (v : ℚ) : ParamRegistry :=
  if id < 0 ∨ (kNumParams : ℤ) ≤ id then values
  else fun j =>
    if j = id.toNat then
      stdClamp v (kParamInfo id.toNat).minValue (kParamInfo id.toNat).maxValue
    else values j

/-- `ParamRegistry::get(id)`: 0 for an invalid id, else the stored value. -/
def ParamRegistry.get (values : ParamRegistry) (id : ℤ) : ℚ :=
  if id < 0 ∨ (kNumParams : ℤ) ≤ id then 0 else values id.toNat

/-- `ParamRegistry::resetToDefaults()` (also the constructor). -/
def ParamRegistry.resetToDefaults : ParamRegistry :=
  fun i => (kParamInfo i).defaultValue

/-- The all-zero `values_` array, used as a concrete store. -/
def zeroRegistry : ParamRegistry := fun _ => 0

/-- The integer ids strictly inside `[0, kCount)` that no `ParamId`
enumerator uses: 6-9, 19-29, 31-39. -/
def isEnumGap (id : ℤ) : Prop :=
  (6 ≤ id ∧ id ≤ 9) ∨ (19 ≤ id ∧ id ≤ 29) ∨ (31 ≤ id ∧ id ≤ 39)

instance (id : ℤ) : Decidable (isEnumGap id) := by
  unfold isEnumGap
  infer_instance

/-! ## ParamSmoother (src/params/src/param_smoother.cpp)

Single-pole exponential smoother.  `std::exp` becomes `Real.exp`, so the
whole component lives over `ℝ`. -/

/-- The smoother's state: `current_`, `target_`, `coeff_` (all `0.f` at
construction per param_smoother.h). -/
structure ParamSmoother where
  current : ℝ
  target : ℝ
  coeff : ℝ

/-- `ParamSmoother::prepare(sampleRate, smoothingMs)`. -/
noncomputable def ParamSmoother.prepare (s : ParamSmoother)
    (sampleRate smoothingMs : ℝ) : ParamSmoother :=
  if 0 < sampleRate ∧ 0 < smoothingMs then
    let tau := smoothingMs / 1000
    { s with coeff := Real.exp (-(1 / (tau * sampleRate))) }
  else
    { s with coeff := 0 } -- instant snap

/-- `ParamSmoother::setTarget(target)`. -/
def ParamSmoother.setTarget (s : ParamSmoother) (target : ℝ) : ParamSmoother :=
  { s with target := target }

/-- `ParamSmoother::next()`: returns the new `current_` and the updated state. -/
noncomputable def ParamSmoother.next (s : ParamSmoother) : ℝ × ParamSmoother :=
  let c := s.coeff * s.current + (1 - s.coeff) * s.target
  (c, { s with current := c })

/-- `ParamSmoother::snap(value)`. -/
def ParamSmoother.snap (s : ParamSmoother) (value : ℝ) : ParamSmoother :=
  { s with current := value, target := value }

/-- `current_` after `k` consecutive `next()` calls. -/
noncomputable def ParamSmoother.iter (s : ParamSmoother) : ℕ → ℝ
  | 0 => s.current
  | k + 1 => s.coeff * s.iter k + (1 - s.coeff) * s.target

/-! ## GainStage (gain_stage.cpp / gain_stage.h) -/

/-- `std::clamp` over `ℝ`. -/
noncomputable def stdClampR (v lo hi : ℝ) : ℝ :=
  if v < lo then lo else if hi < v then hi else v

/-- `GainStage` state: the atomic `targetGainLinear_` (1.f at
construction) and the smoother it owns. -/
structure GainStage where
  targetGainLinear : ℝ
  smoother : ParamSmoother

/-- `GainStage::kMinDb`. -/
def GainStage.kMinDb : ℝ := -60

/-- `GainStage::kMaxDb`. -/
def GainStage.kMaxDb : ℝ := 24

/-- `GainStage::kMinLin` (`1e-3f`, the denormal floor). -/
noncomputable def GainStage.kMinLin : ℝ := 1 / 1000

/-- File-local `kSmoothingMs` in gain_stage.cpp. -/
def kSmoothingMs : ℝ := 10

/-- `dbToLinear(db) = std::pow(10.f, db / 20.f)`. -/
noncomputable def dbToLinear (db : ℝ) : ℝ := (10 : ℝ) ^ (db / 20)

/-- `linearToDb(linear)`: `kMinDb` for non-positive input, else
`20 * std::log10(linear)`. -/
noncomputable def linearToDb (linear : ℝ) : ℝ :=
  if linear ≤ 0 then GainStage.kMinDb else 20 * Real.logb 10 linear

/-- `GainStage::GainStage()`: target 1, default-constructed smoother. -/
noncomputable def GainStage.init : GainStage := ⟨1, ⟨0, 0, 0⟩⟩

/-- `GainStage::prepare(sampleRate, maxBlockSize)` (block size unused). -/
noncomputable def GainStage.prepare (g : GainStage) (sampleRate : ℝ) : GainStage :=
  { g with smoother := (g.smoother.prepare sampleRate kSmoothingMs).snap g.targetGainLinear }

/-- The `for` loop of `GainStage::process`: `buffer[i] *= smoother.next()`
for `i = 0..n-1`, threading the smoother state. -/
noncomputable def GainStage.processLoop (sm : ParamSmoother) (buffer : ℕ → ℝ) :
    ℕ → ParamSmoother × (ℕ → ℝ)
  | 0 => (sm, buffer)
  | n + 1 =>
      let p := GainStage.processLoop sm buffer n
      let v := p.1.next
      (v.2, fun i => if i = n then p.2 i * v.1 else p.2 i)

/-- `GainStage::process(buffer, numSamples)`: one relaxed load of the
atomic target, `setTarget`, then the multiply loop. -/
noncomputable def GainStage.process (g : GainStage) (buffer : ℕ → ℝ) (numSamples : ℕ) :
    GainStage × (ℕ → ℝ) :=
  let target := g.targetGainLinear
  let sm0 := g.smoother.setTarget target
  let r := GainStage.processLoop sm0 buffer numSamples
  ({ g with smoother := r.1 }, r.2)

/-- `GainStage::reset()`. -/
def GainStage.reset (g : GainStage) : GainStage :=
  { g with smoother := g.smoother.snap g.targetGainLinear }

/-- `GainStage::setGainDb(db)`. -/
noncomputable def GainStage.setGainDb (g : GainStage) (db : ℝ) : GainStage :=
  let clamped := stdClampR db GainStage.kMinDb GainStage.kMaxDb
  let linear := max (dbToLinear clamped) GainStage.kMinLin
  { g with targetGainLinear := linear }

/-- `GainStage::setGainLinear(linear)`. -/
noncomputable def GainStage.setGainLinear (g : GainStage) (linear : ℝ) : GainStage :=
  { g with targetGainLinear := max linear GainStage.kMinLin }

/-- `GainStage::getGainDb()`. -/
noncomputable def GainStage.getGainDb (g : GainStage) : ℝ :=
  linearToDb g.targetGainLinear

/-! ## C7: convergence of GainStage under constant unit input

Scenario fixed by the claim: `prepare` at 48 kHz (`kSmoothingMs = 10` ms,
so one smoothing time constant is 480 samples), then `setGainDb(g)`,
then constant `1.0` input. -/

/-! ## NamStage (src/dsp/components/src/nam_stage.cpp, nam_stage.h)

`NeuralAudio::NeuralModel` is an external opaque capability; an instance
is modelled by its block-processing map (from the input buffer and the
sample count to the output buffer contents), its two recommended dB
adjustments, and its settable max buffer size.  `CreateFromFile` is an
environment parameter: it may throw (`Except.error`), return null
(`Except.ok none`) or produce a model. -/

structure NeuralModel where
  proc : (ℕ → ℝ) → ℕ → (ℕ → ℝ)
  inputDBAdjustment : ℝ
  outputDBAdjustment : ℝ
  maxAudioBufferSize : ℤ

/-- `NamStage` state (member defaults from nam_stage.h: null model and
pending model, empty paths, `modelPending_{false}`, unit calibration
gains, `maxBlockSize_ = 0`, `sampleRate_ = 0.f`). -/
structure NamStage where
  model : Option NeuralModel
  currentModelPath : String
  pendingModel : Option NeuralModel
  pendingModelPath : String
  modelPending : Bool
  inputGainLinear : ℝ
  outputGainLinear : ℝ
  sampleRate : ℝ
  maxBlockSize : ℤ

/-- `NamStage::updateCalibration()`: identity gains without a model, else
`std::pow(10.f, dB/20.f)` of the model's recommended adjustments. -/
noncomputable def NamStage.updateCalibration (st : NamStage) : NamStage :=
  match st.model with
  | none => { st with inputGainLinear := 1, outputGainLinear := 1 }
  | some m =>
      { st with
        inputGainLinear := (10 : ℝ) ^ (m.inputDBAdjustment / 20)
        outputGainLinear := (10 : ℝ) ^ (m.outputDBAdjustment / 20) }

/-- `NamStage::applyPendingModel()`: move the pending model and path into
the active slots (`std::move` leaves the pending `unique_ptr` null; the
moved-from path is modelled as empty), clear the flag, recompute
calibration. -/
noncomputable def NamStage.applyPendingModel (st : NamStage) : NamStage :=
  NamStage.updateCalibration
    { st with
      model := st.pendingModel
      currentModelPath := st.pendingModelPath
      pendingModel := none
      pendingModelPath := ""
      modelPending := false }

/-- `NamStage::process(buffer, numSamples)`. -/
noncomputable def NamStage.process (st : NamStage) (buffer : ℕ → ℝ) (numSamples : ℕ) :
    NamStage × (ℕ → ℝ) :=
  let st1 := if st.modelPending then st.applyPendingModel else st
  match st1.model with
  | none => (st1, buffer) -- no model loaded: pass through unmodified
  | some m =>
      let buf1 : ℕ → ℝ :=
        if st1.inputGainLinear ≠ 1 then
          fun i => if i < numSamples then buffer i * st1.inputGainLinear else buffer i
        else buffer
      let out := m.proc buf1 numSamples
      let buf2 : ℕ → ℝ :=
        if st1.outputGainLinear ≠ 1 then
          fun i => if i < numSamples then out i * st1.outputGainLinear else buf1 i
        else
          fun i => if i < numSamples then out i else buf1 i -- memcpy of the first n
      (st1, buf2)

/-- `NamStage::loadModel(path)`. -/
def NamStage.loadModel (createFromFile : String → Except Unit (Option NeuralModel))
    (st : NamStage) (path : String) : Bool × NamStage :=
  match createFromFile path with
  | Except.error _ => (false, st) -- CreateFromFile threw
  | Except.ok none => (false, st) -- CreateFromFile returned null
  | Except.ok (some raw) =>
      let newModel :=
        if 0 < st.maxBlockSize then { raw with maxAudioBufferSize := st.maxBlockSize }
        else raw
      (true,
        { st with
          pendingModel := some newModel
          pendingModelPath := path
          modelPending := true })

/-- `NamStage::unloadModel()`. -/
def NamStage.unloadModel (st : NamStage) : NamStage :=
  { st with pendingModel := none, pendingModelPath := "", modelPending := true }

/-- `NamStage::hasModel()`. -/
def NamStage.hasModel (st : NamStage) : Bool := st.model.isSome

/-- `NamStage::modelPath()`. -/
def NamStage.modelPath (st : NamStage) : String := st.currentModelPath

/-- A concrete opaque model used by witnesses. -/
noncomputable def sampleModel : NeuralModel :=
  ⟨fun buf _ => fun i => buf i + 1, 0, 0, 128⟩

/-- A concrete stage with `sampleModel` staged and the pending flag raised. -/
noncomputable def sampleStage : NamStage :=
  ⟨none, "", some sampleModel, "model.nam", true, 5, 7, 48000, 128⟩

/-- A loader whose `CreateFromFile` returns null for every path. -/
def failingLoader : String → Except Unit (Option NeuralModel) :=
  fun _ => Except.ok none

/-! ## Lemmas and claim theorems -/

lemma Pipeline.stageBlock_length (C s : ℕ) : (Pipeline.stageBlock C s).length = 1 + C := by
  simp [Pipeline.stageBlock]
  omega

lemma Pipeline.processTrace_eq (S C : ℕ) :
    Pipeline.processTrace S C =
      ((List.range C).map PipelineEvent.preProcess)
        ++ (List.range S).flatMap (Pipeline.stageBlock C) := by
  rfl

lemma Pipeline.flatMap_stageBlock_length (S C : ℕ) :
    ((List.range S).flatMap (Pipeline.stageBlock C)).length = S * (1 + C) := by
  induction S with
  | zero => simp
  | succ n ih =>
      rw [List.range_succ, List.flatMap_append, List.length_append, ih]
      simp [Pipeline.stageBlock, Nat.succ_mul]
      omega

lemma Pipeline.flatMap_stageBlock_getElem? (S C s k : ℕ) (hs : s < S) (hk : k < 1 + C) :
    ((List.range S).flatMap (Pipeline.stageBlock C))[s * (1 + C) + k]? =
      (Pipeline.stageBlock C s)[k]? := by
  induction S with
  | zero => omega
  | succ n ih =>
      rw [List.range_succ, List.flatMap_append, List.getElem?_append]
      rcases Nat.lt_or_ge s n with h | h
      · have hlt : s * (1 + C) + k < ((List.range n).flatMap (Pipeline.stageBlock C)).length := by
          rw [Pipeline.flatMap_stageBlock_length]
          calc s * (1 + C) + k < s * (1 + C) + (1 + C) := by omega
            _ = (s + 1) * (1 + C) := by ring
            _ ≤ n * (1 + C) := Nat.mul_le_mul_right _ (by omega)
        rw [if_pos hlt]
        exact ih h
      · have hsn : s = n := by omega
        subst hsn
        rw [if_neg (by rw [Pipeline.flatMap_stageBlock_length]; omega)]
        rw [Pipeline.flatMap_stageBlock_length]
        have harith : s * (1 + C) + k - s * (1 + C) = k := by omega
        rw [harith]
        simp

lemma Pipeline.count_map_between (C s s' : ℕ) :
    ((List.range C).map (fun c => PipelineEvent.betweenStages c s')).count
      (PipelineEvent.stageProcess s) = 0 := by
  rw [List.count_eq_zero]
  intro hx
  rcases List.mem_map.mp hx with ⟨c, _, hc⟩
  exact absurd hc (by simp)

lemma Pipeline.stageBlock_count_stage (C s s' : ℕ) :
    (Pipeline.stageBlock C s').count (PipelineEvent.stageProcess s) =
      if s = s' then 1 else 0 := by
  rw [Pipeline.stageBlock, List.count_cons, Pipeline.count_map_between]
  by_cases h : s = s'
  · subst h; simp
  · simp [h]
    omega

lemma count_range (c C : ℕ) : (List.range C).count c = if c < C then 1 else 0 := by
  induction C with
  | zero => simp
  | succ n ih =>
      rw [List.range_succ, List.count_append, ih]
      by_cases h : c < n
      · have : c ≠ n := by omega
        simp [h, this, Nat.lt_succ_of_lt h]
      · by_cases h2 : c = n
        · subst h2
          simp [h]
        · have : ¬ c < n + 1 := by omega
          simp [h, h2, this]

lemma Pipeline.stageBlock_countP_between (C s' c : ℕ) (hc : c < C) :
    (Pipeline.stageBlock C s').countP (isBetweenOf c) = 1 := by
  rw [Pipeline.stageBlock, List.countP_cons]
  rw [List.countP_map]
  have hfun : ((isBetweenOf c) ∘ (fun x => PipelineEvent.betweenStages x s'))
      = fun x => x == c := by
    funext x
    simp [Function.comp, isBetweenOf]
  rw [hfun]
  have hcount : (List.range C).countP (fun x => x == c) = (List.range C).count c := rfl
  rw [hcount, count_range]
  simp [isBetweenOf, hc]

lemma Pipeline.flatMap_count_stage (S C s : ℕ) :
    ((List.range S).flatMap (Pipeline.stageBlock C)).count (PipelineEvent.stageProcess s) =
      if s < S then 1 else 0 := by
  induction S with
  | zero => simp
  | succ n ih =>
      rw [List.range_succ, List.flatMap_append, List.count_append, ih]
      simp only [List.flatMap_cons, List.flatMap_nil, List.append_nil]
      rw [Pipeline.stageBlock_count_stage]
      by_cases h : s < n
      · have h1 : s ≠ n := by omega
        simp [h, h1, Nat.lt_succ_of_lt h]
      · by_cases h2 : s = n
        · subst h2; simp [h]
        · have h3 : ¬ s < n + 1 := by omega
          simp [h, h2, h3]

lemma Pipeline.flatMap_countP_between (S C c : ℕ) (hc : c < C) :
    ((List.range S).flatMap (Pipeline.stageBlock C)).countP (isBetweenOf c) = S := by
  induction S with
  | zero => simp
  | succ n ih =>
      rw [List.range_succ, List.flatMap_append, List.countP_append, ih]
      simp only [List.flatMap_cons, List.flatMap_nil, List.append_nil]
      rw [Pipeline.stageBlock_countP_between C n c hc]

lemma Pipeline.preBlock_count_pre (C c : ℕ) :
    ((List.range C).map PipelineEvent.preProcess).count (PipelineEvent.preProcess c) =
      if c < C then 1 else 0 := by
  have h : ((List.range C).map PipelineEvent.preProcess).count (PipelineEvent.preProcess c)
      = (List.range C).countP (fun x => x == c) := by
    rw [List.count, List.countP_map]
    congr 1
    funext x
    simp [Function.comp]
  rw [h]
  have hcount : (List.range C).countP (fun x => x == c) = (List.range C).count c := rfl
  rw [hcount, count_range]

lemma Pipeline.preBlock_count_stage (C s : ℕ) :
    ((List.range C).map PipelineEvent.preProcess).count (PipelineEvent.stageProcess s) = 0 := by
  rw [List.count_eq_zero]
  intro hx
  rcases List.mem_map.mp hx with ⟨c, _, hc⟩
  exact absurd hc (by simp)

lemma Pipeline.preBlock_countP_between (C c : ℕ) :
    ((List.range C).map PipelineEvent.preProcess).countP (isBetweenOf c) = 0 := by
  rw [List.countP_eq_zero]
  intro e he
  rcases List.mem_map.mp he with ⟨c', _, hc⟩
  rw [← hc]
  simp [isBetweenOf]

lemma Pipeline.flatMap_count_pre (S C c : ℕ) :
    ((List.range S).flatMap (Pipeline.stageBlock C)).count (PipelineEvent.preProcess c) = 0 := by
  rw [List.count_eq_zero]
  intro hx
  rcases List.mem_flatMap.mp hx with ⟨s, _, hmem⟩
  rw [Pipeline.stageBlock] at hmem
  rcases List.mem_cons.mp hmem with h | h
  · exact absurd h (by simp)
  · rcases List.mem_map.mp h with ⟨c', _, hc⟩
    exact absurd hc (by simp)

lemma Pipeline.stageBlock_getElem?_zero (C s : ℕ) :
    (Pipeline.stageBlock C s)[0]? = some (PipelineEvent.stageProcess s) := by
  simp [Pipeline.stageBlock]

lemma Pipeline.stageBlock_getElem?_between (C s c : ℕ) (hc : c < C) :
    (Pipeline.stageBlock C s)[1 + c]? = some (PipelineEvent.betweenStages c s) := by
  rw [Pipeline.stageBlock]
  have h1 : (1 : ℕ) + c = c + 1 := by omega
  rw [h1, List.getElem?_cons_succ, List.getElem?_map, List.getElem?_range hc]
  rfl

/-- C1: one call to `Pipeline::process(buffer, n)` with `S` registered stages and
`C` registered controllers first invokes every controller's `preProcess` in
registration order (trace positions `0..C-1`), then for each stage index `s` in
registration order that stage's `process` (position `C + s*(1+C)`) followed by
every controller's `betweenStages(s, ...)` in registration order (positions
`C + s*(1+C) + 1 + c`); each stage's `process` occurs exactly once, each
controller's `preProcess` exactly once and its `betweenStages` exactly `S`
times, for a total of `S + S*C + C` calls per block. -/
theorem pipeline_process_call_protocol (S C : ℕ) :
    ((Pipeline.processTrace S C).length = S + S * C + C)
  ∧ (∀ c, c < C →
      (Pipeline.processTrace S C)[c]? = some (PipelineEvent.preProcess c))
  ∧ (∀ s, s < S →
      (Pipeline.processTrace S C)[C + s * (1 + C)]? = some (PipelineEvent.stageProcess s))
  ∧ (∀ s, s < S → ∀ c, c < C →
      (Pipeline.processTrace S C)[C + s * (1 + C) + (1 + c)]? =
        some (PipelineEvent.betweenStages c s))
  ∧ (∀ s, s < S →
      (Pipeline.processTrace S C).count (PipelineEvent.stageProcess s) = 1)
  ∧ (∀ c, c < C →
      (Pipeline.processTrace S C).count (PipelineEvent.preProcess c) = 1)
  ∧ (∀ c, c < C →
      (Pipeline.processTrace S C).countP (isBetweenOf c) = S) := by
  rw [Pipeline.processTrace_eq]
  refine ⟨?_, ?_, ?_, ?_, ?_, ?_, ?_⟩
  · rw [List.length_append, List.length_map, List.length_range,
      Pipeline.flatMap_stageBlock_length]
    ring
  · intro c hc
    rw [List.getElem?_append, if_pos (by simpa using hc), List.getElem?_map,
      List.getElem?_range hc]
    rfl
  · intro s hs
    rw [List.getElem?_append,
      if_neg (by simp only [List.length_map, List.length_range]; omega)]
    simp only [List.length_map, List.length_range]
    have h1 : C + s * (1 + C) - C = s * (1 + C) + 0 := by omega
    rw [h1, Pipeline.flatMap_stageBlock_getElem? S C s 0 hs (by omega)]
    exact Pipeline.stageBlock_getElem?_zero C s
  · intro s hs c hc
    rw [List.getElem?_append,
      if_neg (by simp only [List.length_map, List.length_range]; omega)]
    simp only [List.length_map, List.length_range]
    have h1 : C + s * (1 + C) + (1 + c) - C = s * (1 + C) + (1 + c) := by omega
    rw [h1, Pipeline.flatMap_stageBlock_getElem? S C s (1 + c) hs (by omega)]
    exact Pipeline.stageBlock_getElem?_between C s c hc
  · intro s hs
    rw [List.count_append, Pipeline.preBlock_count_stage, Pipeline.flatMap_count_stage]
    simp [hs]
  · intro c hc
    rw [List.count_append, Pipeline.preBlock_count_pre, Pipeline.flatMap_count_pre]
    simp [hc]
  · intro c hc
    rw [List.countP_append, Pipeline.preBlock_countP_between,
      Pipeline.flatMap_countP_between S C c hc]
    omega

/-- Witness for C1 at `S = 2`, `C = 1`. -/
theorem pipeline_process_call_protocol_witness :
    (Pipeline.processTrace 2 1).length = 2 + 2 * 1 + 1
  ∧ (Pipeline.processTrace 2 1)[0]? = some (PipelineEvent.preProcess 0)
  ∧ (Pipeline.processTrace 2 1)[1 + 1 * (1 + 1)]? = some (PipelineEvent.stageProcess 1)
  ∧ (Pipeline.processTrace 2 1).count (PipelineEvent.stageProcess 0) = 1
  ∧ (Pipeline.processTrace 2 1).countP (isBetweenOf 0) = 2 := by
  have h := pipeline_process_call_protocol 2 1
  exact ⟨h.1, h.2.1 0 (by omega), h.2.2.1 1 (by omega),
    h.2.2.2.2.1 0 (by omega), h.2.2.2.2.2.2 0 (by omega)⟩

lemma ParamRegistry.get_set_valid (values : ParamRegistry) (id : ℤ) (v : ℚ)
    (h0 : 0 ≤ id) (h1 : id < (kNumParams : ℤ)) :
    (values.set id v).get id =
      stdClamp v (kParamInfo id.toNat).minValue (kParamInfo id.toNat).maxValue := by
  have hcond : ¬ (id < 0 ∨ (kNumParams : ℤ) ≤ id) := by omega
  rw [ParamRegistry.set, if_neg hcond, ParamRegistry.get, if_neg hcond]
  simp

lemma ParamRegistry.set_invalid (values : ParamRegistry) (id : ℤ) (v : ℚ)
    (h : id < 0 ∨ (kNumParams : ℤ) ≤ id) :
    values.set id v = values := by
  rw [ParamRegistry.set, if_pos h]

lemma ParamRegistry.get_invalid (values : ParamRegistry) (id : ℤ)
    (h : id < 0 ∨ (kNumParams : ℤ) ≤ id) :
    values.get id = 0 := by
  rw [ParamRegistry.get, if_pos h]

/-- C4: for every registered parameter id and value, `get` after
`set(id, v)` returns `clamp(v, min(id), max(id))` from the static range
table (so `set(MasterGain_dB, 999)` reads back as `24 ≤ 24`); an id
outside `[0, kCount)` makes `set` a silent no-op and `get` return 0. -/
theorem paramRegistry_set_get_contract (values : ParamRegistry) (id : ℤ) (v : ℚ) :
    (0 ≤ id → id < (kNumParams : ℤ) →
      ParamRegistry.get (ParamRegistry.set values id v) id =
        stdClamp v (kParamInfo id.toNat).minValue (kParamInfo id.toNat).maxValue)
  ∧ (id < 0 ∨ (kNumParams : ℤ) ≤ id →
      ParamRegistry.set values id v = values ∧ ParamRegistry.get values id = 0)
  ∧ ParamRegistry.get (ParamRegistry.set values 30 999) 30 = 24 ∧ (24 : ℚ) ≤ 24 := by
  refine ⟨fun h0 h1 => ParamRegistry.get_set_valid values id v h0 h1,
    fun h => ⟨ParamRegistry.set_invalid values id v h, ParamRegistry.get_invalid values id h⟩,
    ?_, le_refl _⟩
  rw [ParamRegistry.get_set_valid values 30 999 (by omega)
    (by simp only [kNumParams]; omega)]
  decide

/-- Witness for C4 at `id = 5` (`EnvReleaseMs`, range `[1, 5000]`) and the
out-of-range id `43`. -/
theorem paramRegistry_set_get_contract_witness :
    ParamRegistry.get (ParamRegistry.set zeroRegistry 5 9999) 5
        = stdClamp 9999 (kParamInfo 5).minValue (kParamInfo 5).maxValue
  ∧ ParamRegistry.set zeroRegistry 43 7 = zeroRegistry
  ∧ ParamRegistry.get zeroRegistry 43 = 0 := by
  have h := paramRegistry_set_get_contract zeroRegistry 5 9999
  have h43 := paramRegistry_set_get_contract zeroRegistry 43 7
  have h43inv := h43.2.1 (by simp only [kNumParams]; omega)
  exact ⟨h.1 (by omega) (by simp only [kNumParams]; omega), h43inv.1, h43inv.2⟩

/-- C10: every id in the gaps of the `ParamId` enumeration is strictly
between 0 and `kCount = 43` and is NOT treated as invalid: its metadata is
the permissive fallback `{0, -1e9, 1e9}`, `set` stores the value clamped
only to `[-1e9, 1e9]`, the default value read back is 0, and in fact no
id in `[0, 43)` is ignored by `set` (only ids below 0 or at least 43 are). -/
theorem paramRegistry_enum_gap_ids (id : ℤ) (h : isEnumGap id)
    (values : ParamRegistry) (v : ℚ) :
    (0 < id ∧ id < 43)
  ∧ kParamInfo id.toNat = ⟨0, -(10^9), 10^9⟩
  ∧ ParamRegistry.get (ParamRegistry.set values id v) id = stdClamp v (-(10^9)) (10^9)
  ∧ ParamRegistry.get ParamRegistry.resetToDefaults id = 0
  ∧ (∀ id2 : ℤ, 0 ≤ id2 → id2 < 43 →
      ParamRegistry.get (ParamRegistry.set zeroRegistry id2 1) id2 ≠ 0) := by
  have hrange : 0 < id ∧ id < 43 := by
    rcases h with ⟨h1, h2⟩ | ⟨h1, h2⟩ | ⟨h1, h2⟩ <;> omega
  have hgapinfo : kParamInfo id.toNat = ⟨0, -(10^9), 10^9⟩ := by
    have hcases : (6 ≤ id.toNat ∧ id.toNat ≤ 9) ∨ (19 ≤ id.toNat ∧ id.toNat ≤ 29)
        ∨ (31 ≤ id.toNat ∧ id.toNat ≤ 39) := by
      rcases h with ⟨h1, h2⟩ | ⟨h1, h2⟩ | ⟨h1, h2⟩ <;> omega
    rcases hcases with ⟨h1, h2⟩ | ⟨h1, h2⟩ | ⟨h1, h2⟩ <;>
      interval_cases hi : id.toNat <;> rfl
  refine ⟨hrange, hgapinfo, ?_, ?_, ?_⟩
  · rw [ParamRegistry.get_set_valid values id v (by omega)
      (by simp only [kNumParams]; omega), hgapinfo]
  · rw [ParamRegistry.get, if_neg (by simp only [kNumParams]; omega),
      ParamRegistry.resetToDefaults, hgapinfo]
  · intro id2 h0 h1
    rw [ParamRegistry.get_set_valid zeroRegistry id2 1 h0
      (by simp only [kNumParams]; omega)]
    have hb : id2.toNat < 43 := by omega
    revert hb
    generalize id2.toNat = n
    intro hb
    interval_cases n <;> norm_num [kParamInfo, stdClamp]

/-- Witness for C10 at the gap id 25. -/
theorem paramRegistry_enum_gap_ids_witness :
    kParamInfo (25 : ℤ).toNat = ⟨0, -(10^9), 10^9⟩
  ∧ ParamRegistry.get (ParamRegistry.set zeroRegistry 25 (2 * 10^9)) 25
      = stdClamp (2 * 10^9) (-(10^9)) (10^9)
  ∧ ParamRegistry.get ParamRegistry.resetToDefaults 25 = 0 := by
  have h := paramRegistry_enum_gap_ids 25 (by decide) zeroRegistry (2 * 10^9)
  exact ⟨h.2.1, h.2.2.1, h.2.2.2.1⟩

/-- C6: `prepare` sets `coeff = exp(-1 / ((smoothingMs/1000) * sampleRate))`
when both arguments are strictly positive and `coeff = 0` otherwise; `next()`
updates `current` to `coeff*current + (1-coeff)*target` and returns it, so
with `coeff = 0` a single `next()` returns the target exactly. -/
theorem paramSmoother_prepare_next_contract (s : ParamSmoother)
    (sampleRate smoothingMs : ℝ) :
    (0 < sampleRate → 0 < smoothingMs →
      (s.prepare sampleRate smoothingMs).coeff
        = Real.exp (-(1 / ((smoothingMs / 1000) * sampleRate))))
  ∧ (¬ (0 < sampleRate ∧ 0 < smoothingMs) →
      (s.prepare sampleRate smoothingMs).coeff = 0)
  ∧ (∀ t : ParamSmoother,
        t.next.1 = t.coeff * t.current + (1 - t.coeff) * t.target
      ∧ t.next.2 = { t with current := t.next.1 })
  ∧ (∀ t : ParamSmoother, t.coeff = 0 → t.next.1 = t.target) := by
  refine ⟨fun h1 h2 => ?_, fun h => ?_, fun t => ⟨rfl, rfl⟩, fun t ht => ?_⟩
  · rw [ParamSmoother.prepare, if_pos ⟨h1, h2⟩]
  · rw [ParamSmoother.prepare, if_neg h]
  · rw [ParamSmoother.next]
    simp [ht]

/-- Witness for C6 at `sampleRate = 48000`, `smoothingMs = 10`, and a
smoother with `coeff = 0`. -/
theorem paramSmoother_prepare_next_contract_witness :
    ((⟨0, 0, 0⟩ : ParamSmoother).prepare 48000 10).coeff
        = Real.exp (-(1 / ((10 / 1000) * 48000)))
  ∧ (⟨3, 7, 0⟩ : ParamSmoother).next.1 = 7 := by
  have h := paramSmoother_prepare_next_contract ⟨0, 0, 0⟩ 48000 10
  have h2 := paramSmoother_prepare_next_contract ⟨3, 7, 0⟩ 48000 10
  exact ⟨h.1 (by norm_num) (by norm_num), h2.2.2.2 ⟨3, 7, 0⟩ rfl⟩

lemma GainStage.processLoop_fst (sm : ParamSmoother) (buffer : ℕ → ℝ) (n : ℕ) :
    (GainStage.processLoop sm buffer n).1 = { sm with current := sm.iter n } := by
  induction n with
  | zero => rfl
  | succ k ih =>
      rw [GainStage.processLoop]
      simp only [ih, ParamSmoother.next]
      rfl

lemma GainStage.processLoop_snd (sm : ParamSmoother) (buffer : ℕ → ℝ) (n : ℕ) (i : ℕ) :
    (GainStage.processLoop sm buffer n).2 i =
      if i < n then buffer i * sm.iter (i + 1) else buffer i := by
  induction n with
  | zero => simp [GainStage.processLoop]
  | succ k ih =>
      rw [GainStage.processLoop]
      simp only
      by_cases h : i = k
      · subst h
        have hv : (GainStage.processLoop sm buffer i).1.next.1 = sm.iter (i + 1) := by
          rw [GainStage.processLoop_fst, ParamSmoother.next, ParamSmoother.iter]
        rw [if_pos rfl, ih, if_neg (by omega), hv, if_pos (by omega)]
      · rw [if_neg h, ih]
        by_cases h2 : i < k
        · rw [if_pos h2, if_pos (by omega)]
        · rw [if_neg h2, if_neg (by omega)]

/-- C5: `setGainDb(db)` stores `max(10^(clamp(db,-60,24)/20), 1e-3)` as the
gain target, and `process` reads the target once at the start of the block,
installs it as the smoother's target, and multiplies sample `i` by the
smoother's `(i+1)`-st successive output; samples at or beyond `numSamples`
are untouched. -/
theorem gainStage_setGainDb_process_contract (g : GainStage) (db : ℝ)
    (buffer : ℕ → ℝ) (n : ℕ) :
    (g.setGainDb db).targetGainLinear
        = max ((10 : ℝ) ^ (stdClampR db (-60) 24 / 20)) (1 / 1000)
  ∧ (g.process buffer n).1.smoother.target = g.targetGainLinear
  ∧ (∀ i, i < n → (g.process buffer n).2 i
        = buffer i * (g.smoother.setTarget g.targetGainLinear).iter (i + 1))
  ∧ (∀ i, n ≤ i → (g.process buffer n).2 i = buffer i) := by
  refine ⟨?_, ?_, fun i hi => ?_, fun i hi => ?_⟩
  · rw [GainStage.setGainDb]
    simp [dbToLinear, GainStage.kMinDb, GainStage.kMaxDb, GainStage.kMinLin]
  · rw [GainStage.process]
    simp only [GainStage.processLoop_fst]
    rfl
  · rw [GainStage.process]
    simp only [GainStage.processLoop_snd]
    rw [if_pos hi]
  · rw [GainStage.process]
    simp only [GainStage.processLoop_snd]
    rw [if_neg (by omega)]

/-- Witness for C5: a two-sample block through `GainStage.init`. -/
theorem gainStage_setGainDb_process_contract_witness :
    (GainStage.init.process (fun _ => 1) 2).2 1
        = 1 * (GainStage.init.smoother.setTarget GainStage.init.targetGainLinear).iter 2
  ∧ (GainStage.init.process (fun _ => 1) 2).2 5 = 1 := by
  have h := gainStage_setGainDb_process_contract GainStage.init 0 (fun _ => 1) 2
  exact ⟨h.2.2.1 1 (by omega), h.2.2.2 5 (by omega)⟩

/-- C9: on `[-60, 24]` dB, `setGainDb` then `getGainDb` is the identity in
exact real arithmetic: the clamp is the identity there, the stored linear
gain `10^(db/20)` is at least the `1e-3` floor, and
`20*log10(10^(db/20)) = db`. -/
theorem gainStage_db_roundtrip (db : ℝ) (h1 : -60 ≤ db) (h2 : db ≤ 24)
    (g : GainStage) : (g.setGainDb db).getGainDb = db := by
  have hclamp : stdClampR db GainStage.kMinDb GainStage.kMaxDb = db := by
    rw [stdClampR, GainStage.kMinDb, GainStage.kMaxDb, if_neg (by linarith),
      if_neg (by linarith)]
  have hpow_pos : (0 : ℝ) < (10 : ℝ) ^ (db / 20) :=
    Real.rpow_pos_of_pos (by norm_num) _
  have hfloor : GainStage.kMinLin ≤ (10 : ℝ) ^ (db / 20) := by
    have hexp : (-3 : ℝ) ≤ db / 20 := by linarith
    have hmono : (10 : ℝ) ^ (-3 : ℝ) ≤ (10 : ℝ) ^ (db / 20) :=
      Real.rpow_le_rpow_of_exponent_le (by norm_num) hexp
    have hval : (10 : ℝ) ^ (-3 : ℝ) = 1 / 1000 := by
      rw [show (-3 : ℝ) = ((-3 : ℤ) : ℝ) by norm_num, Real.rpow_intCast]
      norm_num
    rw [GainStage.kMinLin, ← hval]
    exact hmono
  rw [GainStage.getGainDb, GainStage.setGainDb]
  simp only [hclamp, dbToLinear]
  rw [max_eq_left hfloor, linearToDb, if_neg (by push_neg; exact hpow_pos),
    Real.logb_rpow (by norm_num) (by norm_num)]
  ring

/-- Witness for C9 at `db = -20`. -/
theorem gainStage_db_roundtrip_witness :
    (GainStage.init.setGainDb (-20)).getGainDb = -20 :=
  gainStage_db_roundtrip (-20) (by norm_num) (by norm_num) GainStage.init

lemma ParamSmoother.iter_closed_form (s : ParamSmoother) (k : ℕ) :
    s.iter k = s.coeff ^ k * (s.current - s.target) + s.target := by
  induction k with
  | zero => simp [ParamSmoother.iter]
  | succ n ih =>
      rw [ParamSmoother.iter, ih, pow_succ]
      ring

lemma GainStage.prepared_coeff :
    (GainStage.init.prepare 48000).smoother.coeff = Real.exp (-(1 / 480)) := by
  rw [GainStage.prepare]
  show ((GainStage.init.smoother.prepare 48000 kSmoothingMs).snap
      GainStage.init.targetGainLinear).coeff = _
  rw [ParamSmoother.snap]
  show (GainStage.init.smoother.prepare 48000 kSmoothingMs).coeff = _
  rw [ParamSmoother.prepare, if_pos (by norm_num [kSmoothingMs])]
  show Real.exp (-(1 / (kSmoothingMs / 1000 * 48000))) = _
  norm_num [kSmoothingMs]

lemma GainStage.prepared_smoother_eq :
    (GainStage.init.prepare 48000).smoother = ⟨1, 1, Real.exp (-(1 / 480))⟩ := by
  have hcur : (GainStage.init.prepare 48000).smoother.current = 1 := rfl
  have htar : (GainStage.init.prepare 48000).smoother.target = 1 := rfl
  have hco := GainStage.prepared_coeff
  cases hsm : (GainStage.init.prepare 48000).smoother
  rw [hsm] at hcur htar hco
  simp only at hcur htar hco
  rw [hcur, htar, hco]

lemma GainStage.scenario_smoother0 (g : ℝ) :
    ((GainStage.init.prepare 48000).setGainDb g).smoother.setTarget
        ((GainStage.init.prepare 48000).setGainDb g).targetGainLinear
      = ⟨1, ((GainStage.init.prepare 48000).setGainDb g).targetGainLinear,
          Real.exp (-(1 / 480))⟩ := by
  have hsm : ((GainStage.init.prepare 48000).setGainDb g).smoother
      = (⟨1, 1, Real.exp (-(1 / 480))⟩ : ParamSmoother) :=
    GainStage.prepared_smoother_eq
  rw [ParamSmoother.setTarget, hsm]

/-- Sample `i` of the processed block in the C7 scenario, in closed form. -/
lemma GainStage.scenario_out (g : ℝ) (n i : ℕ) (hi : i < n) :
    (((GainStage.init.prepare 48000).setGainDb g).process (fun _ => 1) n).2 i
      = Real.exp (-(1 / 480)) ^ (i + 1)
          * (1 - ((GainStage.init.prepare 48000).setGainDb g).targetGainLinear)
        + ((GainStage.init.prepare 48000).setGainDb g).targetGainLinear := by
  rw [GainStage.process]
  show (GainStage.processLoop _ _ n).2 i = _
  rw [GainStage.processLoop_snd, if_pos hi, GainStage.scenario_smoother0,
    ParamSmoother.iter_closed_form]
  ring

lemma GainStage.target_neg60 :
    ((GainStage.init.prepare 48000).setGainDb (-60)).targetGainLinear = 1 / 1000 := by
  show max (dbToLinear (stdClampR (-60) GainStage.kMinDb GainStage.kMaxDb))
      GainStage.kMinLin = 1 / 1000
  have hclamp : stdClampR (-60) GainStage.kMinDb GainStage.kMaxDb = -60 := by
    rw [stdClampR, GainStage.kMinDb, GainStage.kMaxDb]
    norm_num
  have hlin : dbToLinear (-60) = 1 / 1000 := by
    rw [dbToLinear, show ((-60 : ℝ) / 20) = ((-3 : ℤ) : ℝ) by norm_num,
      Real.rpow_intCast]
    norm_num
  rw [hclamp, hlin, GainStage.kMinLin]
  norm_num

lemma exp_neg_five_gt : (1 : ℝ) / 243 < Real.exp (-(5 : ℝ)) := by
  have h5 : Real.exp (5 : ℝ) < 243 := by
    have hpow : Real.exp (5 : ℝ) = Real.exp 1 ^ (5 : ℕ) := by
      rw [← Real.exp_nat_mul]
      norm_num
    have hlt : Real.exp 1 ^ (5 : ℕ) < 3 ^ (5 : ℕ) := by
      apply pow_lt_pow_left₀ _ (Real.exp_pos 1).le (by norm_num)
      calc Real.exp 1 < 2.7182818286 := Real.exp_one_lt_d9
        _ < 3 := by norm_num
    rw [hpow]
    calc Real.exp 1 ^ (5 : ℕ) < 3 ^ (5 : ℕ) := hlt
      _ = 243 := by norm_num
  have hpos := Real.exp_pos (5 : ℝ)
  rw [Real.exp_neg]
  rw [show (1 : ℝ) / 243 = 243⁻¹ by norm_num]
  exact inv_strictAnti₀ hpos h5

/-- C7 counterexample: at `g = -60` dB (48 kHz, 10 ms smoothing, so 480
samples per time constant), after exactly 5 smoothing time constants
(2400 samples) of constant unit input, the output is NOT within `1e-3`
relative tolerance of the target `10^(-60/20) = 1e-3`: the relative error
is still `exp(-5) * 999 ≈ 6.7`. -/
theorem gainStage_five_tau_counterexample :
    ¬ (|(((GainStage.init.prepare 48000).setGainDb (-60)).process (fun _ => 1) 2400).2 2399
          - ((GainStage.init.prepare 48000).setGainDb (-60)).targetGainLinear|
        ≤ (1 / 1000) * ((GainStage.init.prepare 48000).setGainDb (-60)).targetGainLinear) := by
  rw [GainStage.scenario_out (-60) 2400 2399 (by omega), GainStage.target_neg60]
  have hpow : Real.exp (-(1 / 480) : ℝ) ^ (2399 + 1) = Real.exp (-(5 : ℝ)) := by
    rw [← Real.exp_nat_mul]
    norm_num
  rw [hpow]
  have hgt := exp_neg_five_gt
  have habs : |Real.exp (-(5 : ℝ)) * (1 - 1 / 1000) + 1 / 1000 - 1 / 1000|
      = Real.exp (-(5 : ℝ)) * (999 / 1000) := by
    rw [show Real.exp (-(5 : ℝ)) * (1 - 1 / 1000) + 1 / 1000 - 1 / 1000
        = Real.exp (-(5 : ℝ)) * (999 / 1000) by ring]
    exact abs_of_pos (by positivity)
  rw [habs]
  intro hle
  nlinarith

/-- C7 amended: in the same scenario, for every gain `g ∈ [-60, 24]` and
every positive tolerance there is a sample count `N` such that every
processed sample at index `≥ N` of a constant-unit-input block is within
that relative tolerance of the stored linear target (convergence needs
enough time constants: about 14, not 5, suffice for `g = -60`); and for
`g = 0` every processed sample equals the input exactly. -/
theorem gainStage_convergence_amended (g : ℝ) (h1 : -60 ≤ g) (h2 : g ≤ 24) :
    (∀ tol : ℝ, 0 < tol → ∃ N : ℕ, ∀ n i : ℕ, N ≤ i → i < n →
      |(((GainStage.init.prepare 48000).setGainDb g).process (fun _ => 1) n).2 i
          - ((GainStage.init.prepare 48000).setGainDb g).targetGainLinear|
        ≤ tol * ((GainStage.init.prepare 48000).setGainDb g).targetGainLinear)
  ∧ (g = 0 → ∀ n i : ℕ, i < n →
      (((GainStage.init.prepare 48000).setGainDb g).process (fun _ => 1) n).2 i = 1) := by
  have hTdef : ((GainStage.init.prepare 48000).setGainDb g).targetGainLinear
      = max (dbToLinear (stdClampR g GainStage.kMinDb GainStage.kMaxDb))
          GainStage.kMinLin := rfl
  have hTfloor : (1 / 1000 : ℝ)
      ≤ ((GainStage.init.prepare 48000).setGainDb g).targetGainLinear := by
    rw [hTdef, GainStage.kMinLin]
    exact le_max_right _ _
  have hTpos : (0 : ℝ)
      < ((GainStage.init.prepare 48000).setGainDb g).targetGainLinear :=
    lt_of_lt_of_le (by norm_num) hTfloor
  have he_pos : (0 : ℝ) < Real.exp (-(1 / 480)) := Real.exp_pos _
  have he_lt1 : Real.exp (-(1 / 480) : ℝ) < 1 := by
    rw [Real.exp_lt_one_iff]
    norm_num
  constructor
  · intro tol htol
    set T := ((GainStage.init.prepare 48000).setGainDb g).targetGainLinear with hT
    have hquot : (0 : ℝ) < tol * T / (|1 - T| + 1) := by positivity
    obtain ⟨N, hN⟩ := exists_pow_lt_of_lt_one hquot he_lt1
    refine ⟨N, fun n i hNi hin => ?_⟩
    rw [GainStage.scenario_out g n i hin, ← hT]
    have habs : |Real.exp (-(1 / 480) : ℝ) ^ (i + 1) * (1 - T) + T - T|
        = Real.exp (-(1 / 480) : ℝ) ^ (i + 1) * |1 - T| := by
      rw [show Real.exp (-(1 / 480) : ℝ) ^ (i + 1) * (1 - T) + T - T
          = Real.exp (-(1 / 480) : ℝ) ^ (i + 1) * (1 - T) by ring]
      rw [abs_mul, abs_of_pos (pow_pos he_pos _)]
    rw [habs]
    have hdec : Real.exp (-(1 / 480) : ℝ) ^ (i + 1)
        ≤ Real.exp (-(1 / 480) : ℝ) ^ N :=
      pow_le_pow_of_le_one he_pos.le he_lt1.le (by omega)
    have habs1 : |1 - T| ≤ |1 - T| + 1 := by linarith
    calc Real.exp (-(1 / 480) : ℝ) ^ (i + 1) * |1 - T|
        ≤ Real.exp (-(1 / 480) : ℝ) ^ N * (|1 - T| + 1) := by
          apply mul_le_mul hdec habs1 (abs_nonneg _) (pow_nonneg he_pos.le _)
      _ ≤ (tol * T / (|1 - T| + 1)) * (|1 - T| + 1) := by
          apply mul_le_mul_of_nonneg_right hN.le (by positivity)
      _ = tol * T := by
          field_simp
  · intro hg n i hin
    subst hg
    have hT1 : ((GainStage.init.prepare 48000).setGainDb 0).targetGainLinear = 1 := by
      rw [hTdef]
      have hclamp : stdClampR 0 GainStage.kMinDb GainStage.kMaxDb = 0 := by
        rw [stdClampR, GainStage.kMinDb, GainStage.kMaxDb]
        norm_num
      have hlin : dbToLinear 0 = 1 := by
        rw [dbToLinear]
        norm_num
      rw [hclamp, hlin, GainStage.kMinLin]
      norm_num
    rw [GainStage.scenario_out 0 n i hin, hT1]
    ring

/-- Witness for the amended C7 at `g = 0`: the first processed sample of a
unit block is exactly 1. -/
theorem gainStage_convergence_amended_witness :
    (((GainStage.init.prepare 48000).setGainDb 0).process (fun _ => 1) 1).2 0 = 1 :=
  (gainStage_convergence_amended 0 (by norm_num) (by norm_num)).2 rfl 1 0 (by omega)

lemma NamStage.process_fst (st : NamStage) (buffer : ℕ → ℝ) (n : ℕ) :
    (st.process buffer n).1 = if st.modelPending then st.applyPendingModel else st := by
  rw [NamStage.process]
  cases hm : (if st.modelPending then st.applyPendingModel else st).model <;> simp [hm]

lemma NamStage.applyPendingModel_model (st : NamStage) :
    st.applyPendingModel.model = st.pendingModel := by
  rw [NamStage.applyPendingModel, NamStage.updateCalibration]
  cases h : st.pendingModel <;> simp [h]

lemma NamStage.applyPendingModel_modelPending (st : NamStage) :
    st.applyPendingModel.modelPending = false := by
  rw [NamStage.applyPendingModel, NamStage.updateCalibration]
  cases h : st.pendingModel <;> simp [h]

/-- C2: on every `process(buffer, n)` call: a raised pending flag makes the
pending model active, clears the flag and recomputes the calibration gains
from the newly active model (identity when it is null) before any sample is
touched (a lowered flag leaves the state untouched); then, with no active
model the buffer is returned completely unchanged, and with an active model
every sample `i < n` becomes the output calibration gain times the model's
block output on the input scaled by the input calibration gain. -/
theorem namStage_process_contract (st : NamStage) (buffer : ℕ → ℝ) (n : ℕ) :
    (st.modelPending = true →
        (st.process buffer n).1.model = st.pendingModel
      ∧ (st.process buffer n).1.modelPending = false
      ∧ (st.pendingModel = none →
            (st.process buffer n).1.inputGainLinear = 1
          ∧ (st.process buffer n).1.outputGainLinear = 1)
      ∧ (∀ m, st.pendingModel = some m →
            (st.process buffer n).1.inputGainLinear = (10 : ℝ) ^ (m.inputDBAdjustment / 20)
          ∧ (st.process buffer n).1.outputGainLinear = (10 : ℝ) ^ (m.outputDBAdjustment / 20)))
  ∧ (st.modelPending = false → (st.process buffer n).1 = st)
  ∧ ((if st.modelPending then st.pendingModel else st.model) = none →
      (st.process buffer n).2 = buffer)
  ∧ (∀ m, (if st.modelPending then st.pendingModel else st.model) = some m →
      ∀ i, i < n →
        (st.process buffer n).2 i
          = m.proc
              (fun j => if j < n then buffer j * (st.process buffer n).1.inputGainLinear
                        else buffer j) n i
            * (st.process buffer n).1.outputGainLinear) := by
  have hfst := NamStage.process_fst st buffer n
  refine ⟨fun hpend => ?_, fun hpend => ?_, fun hnone => ?_, fun m hm i hi => ?_⟩
  · rw [hpend, if_pos rfl] at hfst
    rw [hfst]
    refine ⟨NamStage.applyPendingModel_model st,
      NamStage.applyPendingModel_modelPending st, fun hnone => ?_, fun m hm => ?_⟩
    · constructor <;>
        rw [NamStage.applyPendingModel, NamStage.updateCalibration] <;>
        simp [hnone]
    · constructor <;>
        rw [NamStage.applyPendingModel, NamStage.updateCalibration] <;>
        simp [hm]
  · rw [hpend, if_neg (by simp)] at hfst
    exact hfst
  · have hm1 : (if st.modelPending then st.applyPendingModel else st).model = none := by
      cases hp : st.modelPending
      · rw [hp] at hnone
        rw [if_neg (by simp)]
        exact hnone
      · rw [hp] at hnone
        rw [if_pos rfl, NamStage.applyPendingModel_model]
        exact hnone
    rw [NamStage.process]
    simp only [hm1]
  · have hm1 : (if st.modelPending then st.applyPendingModel else st).model = some m := by
      cases hp : st.modelPending
      · rw [hp] at hm
        rw [if_neg (by simp)]
        exact hm
      · rw [hp] at hm
        rw [if_pos rfl, NamStage.applyPendingModel_model]
        exact hm
    rw [hfst]
    rw [NamStage.process]
    simp only [hm1]
    generalize (if st.modelPending then st.applyPendingModel else st) = st1 at hm1 ⊢
    by_cases hin : st1.inputGainLinear = 1
    · rw [if_neg (not_not_intro hin)]
      have hbuf : (fun j => if j < n then buffer j * st1.inputGainLinear else buffer j)
          = buffer := by
        funext j
        rw [hin, mul_one]
        simp
      by_cases hout : st1.outputGainLinear = 1
      · rw [if_neg (not_not_intro hout), if_pos hi, hbuf, hout, mul_one]
      · rw [if_pos hout, if_pos hi, hbuf]
    · rw [if_pos hin]
      by_cases hout : st1.outputGainLinear = 1
      · rw [if_neg (not_not_intro hout), if_pos hi, hout, mul_one]
      · rw [if_pos hout, if_pos hi]

/-- Witness for C2: processing `sampleStage` swaps the pending model in,
clears the flag, and recomputes the calibration gains from it. -/
theorem namStage_process_contract_witness :
    (sampleStage.process (fun _ => 0) 4).1.model = some sampleModel
  ∧ (sampleStage.process (fun _ => 0) 4).1.modelPending = false
  ∧ (sampleStage.process (fun _ => 0) 4).1.inputGainLinear
      = (10 : ℝ) ^ (sampleModel.inputDBAdjustment / 20) := by
  have h := (namStage_process_contract sampleStage (fun _ => 0) 4).1 rfl
  exact ⟨h.1, h.2.1, (h.2.2.2 sampleModel rfl).1⟩

/-- C3: a `loadModel(path)` call on which `CreateFromFile` throws or returns
null returns `false` and leaves the stage's state — active model,
`hasModel()`, `modelPath()`, pending slot, pending flag, calibration gains —
exactly as before the call, so subsequent `process` output is unchanged. -/
theorem namStage_loadModel_failure (createFromFile : String → Except Unit (Option NeuralModel))
    (st : NamStage) (path : String)
    (h : createFromFile path = Except.error () ∨ createFromFile path = Except.ok none) :
    (NamStage.loadModel createFromFile st path).1 = false
  ∧ (NamStage.loadModel createFromFile st path).2 = st
  ∧ (NamStage.loadModel createFromFile st path).2.hasModel = st.hasModel
  ∧ (NamStage.loadModel createFromFile st path).2.modelPath = st.modelPath
  ∧ (NamStage.loadModel createFromFile st path).2.modelPending = st.modelPending
  ∧ (NamStage.loadModel createFromFile st path).2.pendingModel = st.pendingModel
  ∧ (NamStage.loadModel createFromFile st path).2.inputGainLinear = st.inputGainLinear
  ∧ (NamStage.loadModel createFromFile st path).2.outputGainLinear = st.outputGainLinear
  ∧ (∀ buffer n,
      ((NamStage.loadModel createFromFile st path).2.process buffer n) = st.process buffer n) := by
  have hst : NamStage.loadModel createFromFile st path = (false, st) := by
    rcases h with h | h <;> rw [NamStage.loadModel, h]
  rw [hst]
  exact ⟨rfl, rfl, rfl, rfl, rfl, rfl, rfl, rfl, fun buffer n => rfl⟩

/-- Witness for C3: the failing loader on `sampleStage`. -/
theorem namStage_loadModel_failure_witness :
    (NamStage.loadModel failingLoader sampleStage "missing.nam").1 = false
  ∧ (NamStage.loadModel failingLoader sampleStage "missing.nam").2 = sampleStage := by
  have h := namStage_loadModel_failure failingLoader sampleStage "missing.nam" (Or.inr rfl)
  exact ⟨h.1, h.2.1⟩

end Hexcaster
